import Mathlib

/-!
Verification of the codemirror synchronization controller (`src/extension.ts`).

The source is a TypeScript VS Code extension.  We embed its core shallowly:
JavaScript strings are modelled as `List Char`, the string operations the
source uses (`split`, `startsWith`, `endsWith`, `trim`, `substring`) are
given structural definitions matching JavaScript semantics for the ways the
source calls them, and the external `exec` of the transfer tool is an oracle
carried in the environment record.  `runSyncCommand` returns an instrumented
outcome recording the resolved result, the final deletion mode, the ordered
list of status-bar states set during the cycle, whether the external tool was
invoked, the constructed command, and the parsed changed/deleted lines.
-/

namespace CodeMirror

/-- JavaScript `s.split(sep)` for a single-character separator, over
`List Char`.  `"".split(c)` yields `[""]`, and separators at the ends yield
empty fields, as in JavaScript. -/
def jsSplit (sep : Char) : List Char → List (List Char)
  | [] => [[]]
  | c :: s =>
    if c = sep then [] :: jsSplit sep s
    else
      match jsSplit sep s with
      | [] => [[c]]
      | hd :: tl => (c :: hd) :: tl

/-- JavaScript `s.startsWith(p)` over `List Char` (first argument the string,
second the pattern). -/
def jsStartsWith : List Char → List Char → Bool
  | _, [] => true
  | [], _ :: _ => false
  | c :: s, q :: p => c == q && jsStartsWith s p

/-- JavaScript `s.endsWith(p)` over `List Char`. -/
def jsEndsWith (s p : List Char) : Bool :=
  jsStartsWith s.reverse p.reverse

/-- Remove leading whitespace characters. -/
def jsTrimLeft : List Char → List Char
  | [] => []
  | c :: s => if c.isWhitespace then jsTrimLeft s else c :: s

/-- JavaScript `s.trim()` over `List Char`: strip whitespace from both
ends. -/
def jsTrim (s : List Char) : List Char :=
  jsTrimLeft ((jsTrimLeft s.reverse).reverse)

/-- `SyncState` enumeration of `extension.ts`. -/
inductive SyncState
  | Init
  | Synced
  | Syncing
  | Error
deriving DecidableEq, Repr

/-- `DeletionMode` enumeration of `extension.ts`. -/
inductive DeletionMode
  | Off
  | Once
  | On
deriving DecidableEq, Repr

/-- Outcome of one invocation of the external process (`exec` callback
arguments): `error` is `some message` when the process failed (non-zero
exit), `stdout` and `stderr` are the captured streams. -/
structure ExecResult where
  error : Option (List Char)
  stdout : List Char
  stderr : List Char

/-- The resolved value of the promise returned by `runSyncCommand`. -/
structure SyncResult where
  success : Bool
  message : Option (List Char)

/-- Environment of one sync cycle: the module-level `currentHost`, the
workspace folder path (`workspaceFolders?.[0]`, as its `fsPath`), whether a
`.gitignore` file exists at the workspace root, the external-process oracle,
and the measured execution time in milliseconds. -/
structure Env where
  currentHost : Option (List Char)
  workspaceFolder : Option (List Char)
  gitignoreExists : Bool
  exec : List Char → ExecResult
  execDuration : Nat

/-- Instrumented outcome of `runSyncCommand`: the resolved result, the
deletion mode after the cycle, the sequence of states passed to
`updateStatusBar` during the cycle (in call order), whether the external
transfer tool was invoked, the constructed command (when reached), the raw
exec outcome (when invoked), the parsed changed file names (with the
`"change: "` label and surrounding whitespace stripped), and the raw
`"delete:"` lines. -/
structure CycleOutcome where
  result : SyncResult
  finalMode : DeletionMode
  trace : List SyncState
  invoked : Bool
  command : Option (List Char)
  execResult : Option ExecResult
  changedNames : List (List Char)
  deletedLines : List (List Char)

/-- Line 87 of the source: the `--exclude-from` option computed from the
`.gitignore` path.  The source computes this value but never inserts it into
the command (dead store); it is kept here for fidelity. -/
def excludeFromOption (gitignoreExists : Bool) (gitignorePath : List Char) : List Char :=
  if gitignoreExists then "--exclude-from=".data ++ gitignorePath else []

/-- Line 90 of the source: `currentHost.endsWith('/') ? currentHost :
currentHost + '/'`. -/
def dest_path (host : List Char) : List Char :=
  if jsEndsWith host "/".data then host else host ++ "/".data

/-- The pieces whose concatenation is the template literal of lines 93-97 of
the source.  Backslash-newline inside the template literal is a line
continuation contributing nothing; each continuation line carries three
leading tab characters, kept here verbatim. -/
def commandParts (dm : DeletionMode) (fsPath destp : List Char) : List (List Char) :=
  [ "rsync -avzh ".data,
    "\t\t\t".data,
    if dm ≠ DeletionMode.Off then "--delete-after ".data else [],
    "\t\t\t".data,
    "--include='**.gitignore' ".data,
    "--exclude='/.git' ".data,
    "--filter=':- .gitignore' ".data,
    "\t\t\t".data,
    "--out-format='change: %n' ".data,
    "\t\t\t".data,
    fsPath,
    " ".data,
    destp ]

/-- The constructed transfer command of lines 93-97. -/
def buildCommand (dm : DeletionMode) (fsPath destp : List Char) : List Char :=
  (commandParts dm fsPath destp).flatten

/-- The success message of line 140: `Synced N files in Dms`. -/
def syncedMessage (n dur : Nat) : List Char :=
  "Synced ".data ++ (Nat.repr n).data ++ " files in ".data ++ (Nat.repr dur).data ++ "ms".data

/-- Outcome of the early return of lines 63-67: no (or blank) current
host. -/
def noHostOutcome (dm : DeletionMode) : CycleOutcome :=
  { result := ⟨false, some "no remote host selected".data⟩
    finalMode := dm
    trace := [SyncState.Init]
    invoked := false
    command := none
    execResult := none
    changedNames := []
    deletedLines := [] }

/-- Outcome of the early return of lines 72-77: no workspace folder.  The
status bar was already set to `Syncing` (line 69) before this check. -/
def noWorkspaceOutcome (dm : DeletionMode) : CycleOutcome :=
  { result := ⟨false, some "no workspace folder found".data⟩
    finalMode := dm
    trace := [SyncState.Syncing, SyncState.Error]
    invoked := false
    command := none
    execResult := none
    changedNames := []
    deletedLines := [] }

/-- The `exec` callback of lines 100-142: inspect `error`, then `stderr`,
then consume a `Once` deletion mode and parse the output.  The cycle's trace
starts with the two `Syncing` updates of lines 69 and 80. -/
def execCallback (dm : DeletionMode) (cmd : List Char) (er : ExecResult)
    (executionTime : Nat) : CycleOutcome :=
  match er.error with
  | some emsg =>
    { result := ⟨false, some emsg⟩
      finalMode := dm
      trace := [SyncState.Syncing, SyncState.Syncing, SyncState.Error]
      invoked := true
      command := some cmd
      execResult := some er
      changedNames := []
      deletedLines := [] }
  | none =>
    if er.stderr ≠ [] then
      { result := ⟨false, some er.stderr⟩
        finalMode := dm
        trace := [SyncState.Syncing, SyncState.Syncing, SyncState.Error]
        invoked := true
        command := some cmd
        execResult := some er
        changedNames := []
        deletedLines := [] }
    else
      let dm2 := if dm = DeletionMode.Once then DeletionMode.Off else dm
      let deletedFiles := (jsSplit '\n' er.stdout).filter
        (fun line => jsStartsWith line "delete:".data)
      let changedLines := (jsSplit '\n' er.stdout).filter
        (fun line => jsStartsWith line "change:".data)
      let changedNames := changedLines.map (fun line => jsTrim (line.drop 8))
      { result := ⟨true, some (syncedMessage changedLines.length executionTime)⟩
        finalMode := dm2
        trace := [SyncState.Syncing, SyncState.Syncing, SyncState.Synced]
        invoked := true
        command := some cmd
        execResult := some er
        changedNames := changedNames
        deletedLines := deletedFiles }

/-- `runSyncCommand` of lines 60-145: reject a missing or blank current
host (status `Init`), reject a missing workspace folder (status `Error`
after the first `Syncing`), otherwise build the rsync command and hand the
external process outcome to the callback. -/
def runSyncCommand (env : Env) (dm : DeletionMode) : CycleOutcome :=
  match env.currentHost with
  | none => noHostOutcome dm
  | some host =>
    if jsTrim host = [] then noHostOutcome dm
    else
      match env.workspaceFolder with
      | none => noWorkspaceOutcome dm
      | some fsPath =>
        execCallback dm (buildCommand dm fsPath (dest_path host))
          (env.exec (buildCommand dm fsPath (dest_path host))) env.execDuration

/-- `validateHost` of lines 226-249, with the ssh reachability probe
abstracted as the boolean `reachable` (true when the remote `ls` exits
zero).  Returns the resolved boolean paired with whether the remote probe
was executed. -/
def validateHost (host : List Char) (testReachability : Bool)
    (reachable : Bool) : Bool × Bool :=
  if (jsSplit ':' host).length != 2 || ((jsSplit ':' host).getD 0 []).isEmpty
      || ((jsSplit ':' host).getD 1 []).isEmpty then
    (false, false)
  else if testReachability then
    (reachable, true)
  else
    (true, false)

/-- Module-level registry state: the `remoteHosts` list and the
`currentHost` selection. -/
structure RegistryState where
  remoteHosts : List (List Char)
  currentHost : Option (List Char)

/-- Outcome of `promptRemoveHost`: the new registry state and the status-bar
state set during the operation, if any. -/
structure RemoveOutcome where
  registry : RegistryState
  status : Option SyncState

/-- Body of `promptRemoveHost` (lines 178-187) once a host has been picked:
clear the selection (and set status `Init`) when the removed host is the
current one, then filter it out of `remoteHosts`. -/
def promptRemoveHost (hostToRemove : List Char) (st : RegistryState) : RemoveOutcome :=
  let cleared := st.currentHost = some hostToRemove
  { registry :=
      { remoteHosts := st.remoteHosts.filter (fun host => host ≠ hostToRemove)
        currentHost := if cleared then none else st.currentHost }
    status := if cleared then some SyncState.Init else none }

/-- How an add-host attempt ends: validation failed (bad format or
unreachable), duplicate warning, or added. -/
inductive AddOutcome
  | notValid
  | alreadyExists
  | added
deriving DecidableEq, Repr

/-- Outcome of `promptAddHost`: how it ended, the new `remoteHosts` list,
and whether a sync cycle was triggered (`setHost` is only reached on the
added path). -/
structure AddResult where
  outcome : AddOutcome
  remoteHosts : List (List Char)
  syncTriggered : Bool

/-- Body of `promptAddHost` (lines 255-272) once a non-empty host string has
been entered: validate (format plus reachability), warn and stop on an
exact duplicate, otherwise append, persist and `setHost` (which starts a
sync cycle). -/
def promptAddHost (newHost : List Char) (reachable : Bool)
    (hosts : List (List Char)) : AddResult :=
  if (validateHost newHost true reachable).1 = false then
    { outcome := AddOutcome.notValid, remoteHosts := hosts, syncTriggered := false }
  else if newHost ∈ hosts then
    { outcome := AddOutcome.alreadyExists, remoteHosts := hosts, syncTriggered := false }
  else
    { outcome := AddOutcome.added, remoteHosts := hosts ++ [newHost], syncTriggered := true }

/-! ### Properties of the string-operation embedding -/

theorem jsSplit_ne_nil (sep : Char) (s : List Char) : jsSplit sep s ≠ [] := by
  induction s with
  | nil => simp [jsSplit]
  | cons c t ih =>
    simp only [jsSplit]
    split
    · simp
    · split <;> simp

theorem jsSplit_of_not_mem (sep : Char) (s : List Char) (h : sep ∉ s) :
    jsSplit sep s = [s] := by
  induction s with
  | nil => rfl
  | cons c t ih =>
    have hc : ¬ c = sep := fun he => h (he ▸ List.mem_cons_self c t)
    have ht : sep ∉ t := fun hm => h (List.mem_cons_of_mem _ hm)
    simp [jsSplit, hc, ih ht]

theorem jsSplit_append (sep : Char) (a b : List Char) (ha : sep ∉ a) :
    jsSplit sep (a ++ sep :: b) = a :: jsSplit sep b := by
  induction a with
  | nil => simp [jsSplit]
  | cons c t ih =>
    have hc : ¬ c = sep := fun he => ha (he ▸ List.mem_cons_self c t)
    have ht : sep ∉ t := fun hm => ha (List.mem_cons_of_mem _ hm)
    simp [jsSplit, hc, ih ht]

theorem eq_of_jsSplit_singleton (sep : Char) (s x : List Char)
    (h : jsSplit sep s = [x]) : s = x ∧ sep ∉ s := by
  induction s generalizing x with
  | nil =>
    simp only [jsSplit, List.cons.injEq, and_true] at h
    exact ⟨h, by simp⟩
  | cons c t ih =>
    simp only [jsSplit] at h
    split at h
    · obtain ⟨h1, h2⟩ := List.cons.inj h
      exact absurd h2 (jsSplit_ne_nil sep t)
    · rename_i hc
      split at h
      · rename_i heq
        exact absurd heq (jsSplit_ne_nil sep t)
      · rename_i hd tl heq
        obtain ⟨hx, htl⟩ := List.cons.inj h
        subst htl
        obtain ⟨ht, hmem⟩ := ih hd heq
        subst ht
        refine ⟨hx, fun hin => ?_⟩
        rcases List.mem_cons.mp hin with h1 | h2
        · exact hc h1.symm
        · exact hmem h2

theorem jsSplit_pair (sep : Char) (s a b : List Char)
    (h : jsSplit sep s = [a, b]) :
    s = a ++ sep :: b ∧ sep ∉ a ∧ sep ∉ b := by
  induction s generalizing a with
  | nil => simp [jsSplit] at h
  | cons c t ih =>
    simp only [jsSplit] at h
    split at h
    · rename_i hc
      obtain ⟨h1, h2⟩ := List.cons.inj h
      obtain ⟨ht, hmem⟩ := eq_of_jsSplit_singleton sep t b h2
      subst ht
      subst hc
      exact ⟨by simp [← h1], by simp [← h1], hmem⟩
    · rename_i hc
      split at h
      · rename_i heq
        exact absurd heq (jsSplit_ne_nil sep t)
      · rename_i hd tl heq
        obtain ⟨h1, h2⟩ := List.cons.inj h
        subst h2
        obtain ⟨ht, hmemhd, hmemb⟩ := ih hd heq
        subst ht
        refine ⟨by simp [← h1], ?_, hmemb⟩
        rw [← h1]
        intro hin
        rcases List.mem_cons.mp hin with h3 | h4
        · exact hc h3.symm
        · exact hmemhd h4

/-! ### Claim C6: host-format validation -/

/-- **C6** — For every host string `h`, `validateHost(h, false)` resolves to
`true` if and only if `h` contains exactly one colon splitting it into two
non-empty parts; and it performs no remote invocation when the reachability
flag is `false` (for any outcome `r` the probe would have had). -/
theorem c6_validateHost_format (h : List Char) (r : Bool) :
    ((validateHost h false r).1 = true ↔
        ∃ a b : List Char, h = a ++ ':' :: b ∧ a ≠ [] ∧ b ≠ [] ∧ ':' ∉ a ∧ ':' ∉ b)
  ∧ (validateHost h false r).2 = false := by
  constructor
  · constructor
    · intro htrue
      unfold validateHost at htrue
      split at htrue
      · simp at htrue
      · rename_i hcond
        split at htrue
        · rename_i hcontra
          simp at hcontra
        · simp only [Bool.or_eq_true, not_or, bne_iff_ne, ne_eq, not_not,
            List.isEmpty_iff] at hcond
          obtain ⟨⟨hlen, h0⟩, h1⟩ := hcond
          obtain ⟨a, b, hab⟩ := List.length_eq_two.mp hlen
          rw [hab] at h0 h1
          obtain ⟨hs, hma, hmb⟩ := jsSplit_pair ':' h a b hab
          refine ⟨a, b, hs, ?_, ?_, hma, hmb⟩
          · simpa using h0
          · simpa using h1
    · rintro ⟨a, b, rfl, ha, hb, hma, hmb⟩
      have hsplit : jsSplit ':' (a ++ ':' :: b) = [a, b] := by
        rw [jsSplit_append ':' a b hma, jsSplit_of_not_mem ':' b hmb]
      simp [validateHost, hsplit, ha, hb]
  · unfold validateHost
    split
    · rfl
    · split
      · rename_i hcontra
        simp at hcontra
      · rfl

theorem c6_witness :
    (validateHost "box:/srv/app".data false true).1 = true ∧
    (validateHost "box:/srv/app".data false true).2 = false :=
  ⟨(c6_validateHost_format "box:/srv/app".data true).1.mpr
      ⟨"box".data, "/srv/app".data, by decide, by decide, by decide, by decide, by decide⟩,
    (c6_validateHost_format "box:/srv/app".data true).2⟩

/-! ### Claim C10: destination path normalization -/

theorem jsEndsWith_slash_iff (l : List Char) :
    jsEndsWith l "/".data = true ↔ l.getLast? = some '/' := by
  unfold jsEndsWith
  rw [← List.head?_reverse]
  cases hr : l.reverse with
  | nil => simp [jsStartsWith]
  | cons c t => simp [jsStartsWith]

/-- **C10** — For every cycle that reaches command construction, the
destination is the current host with exactly one `/` appended when the host
does not already end with `/`, and the unmodified host when it does. -/
theorem c10_dest_path (host : List Char) :
    (host.getLast? = some '/' → dest_path host = host)
  ∧ (host.getLast? ≠ some '/' → dest_path host = host ++ "/".data) := by
  constructor
  · intro hl
    unfold dest_path
    rw [if_pos ((jsEndsWith_slash_iff host).mpr hl)]
  · intro hl
    unfold dest_path
    rw [if_neg (fun hc => hl ((jsEndsWith_slash_iff host).mp hc))]

theorem c10_witness :
    dest_path "box:/x".data = "box:/x/".data ∧ dest_path "box:/x/".data = "box:/x/".data :=
  ⟨(c10_dest_path "box:/x".data).2 (by decide),
    (c10_dest_path "box:/x/".data).1 (by decide)⟩

/-! ### Claim C7: removing a host -/

/-- **C7** — For every remove operation: removing the currently selected
host clears the selection and sets state `Init`; removing any other host
leaves the selection unchanged; in both cases the removed host is absent
from the registry afterwards and the surviving entries keep their relative
order (the new list is a sublist of the old one, containing every old entry
other than the removed host). -/
theorem c7_promptRemoveHost (hostToRemove : List Char) (st : RegistryState) :
    (st.currentHost = some hostToRemove →
        (promptRemoveHost hostToRemove st).registry.currentHost = none ∧
        (promptRemoveHost hostToRemove st).status = some SyncState.Init)
  ∧ (st.currentHost ≠ some hostToRemove →
        (promptRemoveHost hostToRemove st).registry.currentHost = st.currentHost)
  ∧ hostToRemove ∉ (promptRemoveHost hostToRemove st).registry.remoteHosts
  ∧ List.Sublist (promptRemoveHost hostToRemove st).registry.remoteHosts st.remoteHosts
  ∧ (∀ x ∈ st.remoteHosts, x ≠ hostToRemove →
        x ∈ (promptRemoveHost hostToRemove st).registry.remoteHosts) := by
  refine ⟨?_, ?_, ?_, ?_, ?_⟩
  · intro hc
    simp [promptRemoveHost, hc]
  · intro hc
    simp [promptRemoveHost, hc]
  · simp [promptRemoveHost]
  · exact List.filter_sublist _
  · intro x hx hne
    simp [promptRemoveHost, List.mem_filter, hx, hne]

theorem c7_witness :
    (promptRemoveHost "a:1".data ⟨["a:1".data, "b:2".data], some "a:1".data⟩).registry.currentHost
        = none ∧
    (promptRemoveHost "a:1".data ⟨["a:1".data, "b:2".data], some "b:2".data⟩).registry.currentHost
        = some "b:2".data :=
  ⟨((c7_promptRemoveHost "a:1".data ⟨["a:1".data, "b:2".data], some "a:1".data⟩).1 rfl).1,
    (c7_promptRemoveHost "a:1".data ⟨["a:1".data, "b:2".data], some "b:2".data⟩).2.1 (by decide)⟩

/-! ### Claim C8: failed add attempts -/

/-- **C8** — Every add-host attempt that does not end in `added` (invalid
format, unreachable remote, or exact duplicate) leaves the registry
unchanged and triggers no sync cycle; and when validation passes but the
host is already present as an exact string match, the outcome is the
non-fatal `alreadyExists` warning. -/
theorem c8_promptAddHost (newHost : List Char) (reachable : Bool)
    (hosts : List (List Char)) :
    ((promptAddHost newHost reachable hosts).outcome ≠ AddOutcome.added →
        (promptAddHost newHost reachable hosts).remoteHosts = hosts ∧
        (promptAddHost newHost reachable hosts).syncTriggered = false)
  ∧ ((validateHost newHost true reachable).1 = true → newHost ∈ hosts →
        (promptAddHost newHost reachable hosts).outcome = AddOutcome.alreadyExists) := by
  by_cases hv : (validateHost newHost true reachable).1 = false
  · constructor
    · intro _
      simp [promptAddHost, hv]
    · intro ht
      rw [ht] at hv
      simp at hv
  · by_cases hm : newHost ∈ hosts
    · constructor
      · intro _
        simp [promptAddHost, hv, hm]
      · intro _ _
        simp [promptAddHost, hv, hm]
    · constructor
      · intro hne
        exfalso
        apply hne
        simp [promptAddHost, hv, hm]
      · intro _ hmem
        exact absurd hmem hm

theorem c8_witness :
    (promptAddHost "a:1".data true ["a:1".data]).remoteHosts = ["a:1".data] ∧
    (promptAddHost "a:1".data true ["a:1".data]).syncTriggered = false ∧
    (promptAddHost "a:1".data true ["a:1".data]).outcome = AddOutcome.alreadyExists :=
  ⟨((c8_promptAddHost "a:1".data true ["a:1".data]).1 (by decide)).1,
    ((c8_promptAddHost "a:1".data true ["a:1".data]).1 (by decide)).2,
    (c8_promptAddHost "a:1".data true ["a:1".data]).2 (by decide) (by decide)⟩

/-! ### Claim C4: shape of the constructed transfer command -/

/-- **C4** — In the constructed transfer command, the `--delete-after` flag
is present if and only if the deletion mode is not `Off`; the include rule
for the ignore-file name, the exclude rule for the version-control
directory, the filter rule consuming the local ignore file, and the
output-format directive placing `change: ` before each changed entry are
always present.  Presence is membership among the concatenated pieces of
the command (the side conditions rule out a path that is itself the
flag). -/
theorem c4_command_contract (dm : DeletionMode) (fsPath destp : List Char)
    (hfs : fsPath ≠ "--delete-after ".data) (hdp : destp ≠ "--delete-after ".data) :
    ("--delete-after ".data ∈ commandParts dm fsPath destp ↔ dm ≠ DeletionMode.Off)
  ∧ "--include='**.gitignore' ".data ∈ commandParts dm fsPath destp
  ∧ "--exclude='/.git' ".data ∈ commandParts dm fsPath destp
  ∧ "--filter=':- .gitignore' ".data ∈ commandParts dm fsPath destp
  ∧ "--out-format='change: %n' ".data ∈ commandParts dm fsPath destp := by
  refine ⟨⟨fun hmem => ?_, fun hne => ?_⟩, ?_, ?_, ?_, ?_⟩
  · intro hdm
    subst hdm
    simp only [commandParts, ne_eq, not_true_eq_false, if_false,
      List.mem_cons, List.not_mem_nil, or_false] at hmem
    rcases hmem with h | h | h | h | h | h | h | h | h | h | h | h | h
    all_goals first
      | exact absurd h (by decide)
      | exact hfs h.symm
      | exact hdp h.symm
  · cases dm with
    | Off => exact absurd rfl hne
    | Once => simp [commandParts]
    | On => simp [commandParts]
  · cases dm <;> simp [commandParts]
  · cases dm <;> simp [commandParts]
  · cases dm <;> simp [commandParts]
  · cases dm <;> simp [commandParts]

theorem c4_witness :
    ("--delete-after ".data ∈ commandParts DeletionMode.Once "/ws".data "box:/x/".data)
  ∧ ¬ ("--delete-after ".data ∈ commandParts DeletionMode.Off "/ws".data "box:/x/".data) :=
  ⟨(c4_command_contract DeletionMode.Once "/ws".data "box:/x/".data
      (by decide) (by decide)).1.mpr (by decide),
    fun hmem =>
      ((c4_command_contract DeletionMode.Off "/ws".data "box:/x/".data
        (by decide) (by decide)).1.mp hmem) rfl⟩

/-- Fidelity check: at a concrete mode, workspace path and destination,
the assembled command is exactly the string the source's template literal
produces (backslash-newline continuations contribute nothing; each
continuation line carries three tabs). -/
theorem buildCommand_sample :
    buildCommand DeletionMode.On "/ws".data "box:/x/".data =
      ("rsync -avzh \t\t\t--delete-after \t\t\t--include='**.gitignore' " ++
        "--exclude='/.git' --filter=':- .gitignore' \t\t\t" ++
        "--out-format='change: %n' \t\t\t/ws box:/x/").data := by
  decide

/-! ### Whitespace trimming -/

theorem jsTrimLeft_eq_nil_iff (l : List Char) :
    jsTrimLeft l = [] ↔ ∀ c ∈ l, c.isWhitespace = true := by
  induction l with
  | nil => simp [jsTrimLeft]
  | cons c t ih =>
    by_cases hw : c.isWhitespace
    · simp [jsTrimLeft, hw, ih]
    · simp [jsTrimLeft, hw]

theorem mem_of_mem_jsTrimLeft (l : List Char) (c : Char) (h : c ∈ jsTrimLeft l) :
    c ∈ l := by
  induction l with
  | nil => simp [jsTrimLeft] at h
  | cons d t ih =>
    by_cases hw : d.isWhitespace
    · rw [jsTrimLeft, if_pos hw] at h
      exact List.mem_cons_of_mem _ (ih h)
    · rwa [jsTrimLeft, if_neg hw] at h

theorem mem_jsTrimLeft_or_isWhitespace (l : List Char) (c : Char) (h : c ∈ l) :
    c ∈ jsTrimLeft l ∨ c.isWhitespace = true := by
  induction l with
  | nil => simp at h
  | cons d t ih =>
    by_cases hw : d.isWhitespace
    · rw [jsTrimLeft, if_pos hw]
      rcases List.mem_cons.mp h with h1 | h2
      · exact Or.inr (h1 ▸ hw)
      · exact ih h2
    · rw [jsTrimLeft, if_neg hw]
      exact Or.inl h

theorem jsTrim_eq_nil_iff (l : List Char) :
    jsTrim l = [] ↔ ∀ c ∈ l, c.isWhitespace = true := by
  unfold jsTrim
  rw [jsTrimLeft_eq_nil_iff]
  constructor
  · intro hall c hc
    rcases mem_jsTrimLeft_or_isWhitespace l.reverse c (List.mem_reverse.mpr hc) with h1 | h2
    · exact hall c (List.mem_reverse.mpr h1)
    · exact h2
  · intro hall c hc
    exact hall c (List.mem_reverse.mp
      (mem_of_mem_jsTrimLeft l.reverse c (List.mem_reverse.mp hc)))

/-! ### Reaching the exec callback -/

theorem execCallback_execResult (dm : DeletionMode) (cmd : List Char)
    (er : ExecResult) (t : Nat) :
    (execCallback dm cmd er t).execResult = some er := by
  rcases her : er.error with _ | e
  · unfold execCallback
    rw [her]
    by_cases hs : er.stderr = []
    · simp [hs]
    · simp [hs]
  · unfold execCallback
    rw [her]

theorem runSyncCommand_eq_callback (env : Env) (dm : DeletionMode) (er : ExecResult)
    (hres : (runSyncCommand env dm).execResult = some er) :
    ∃ cmd, runSyncCommand env dm = execCallback dm cmd er env.execDuration := by
  unfold runSyncCommand at hres ⊢
  cases hc : env.currentHost with
  | none =>
    rw [hc] at hres
    simp [noHostOutcome] at hres
  | some host =>
    rw [hc] at hres
    by_cases ht : jsTrim host = []
    · simp [ht, noHostOutcome] at hres
    · cases hw : env.workspaceFolder with
      | none =>
        rw [hw] at hres
        simp [ht, noWorkspaceOutcome] at hres
      | some fsPath =>
        rw [hw] at hres
        dsimp only at hres ⊢
        rw [if_neg ht] at hres ⊢
        rw [execCallback_execResult dm (buildCommand dm fsPath (dest_path host))
          (env.exec (buildCommand dm fsPath (dest_path host))) env.execDuration] at hres
        obtain her := Option.some.inj hres
        exact ⟨buildCommand dm fsPath (dest_path host), by rw [her]⟩

/-! ### Sample environments -/

/-- Transfer-tool oracle that always succeeds with the sample output
`"change: a.txt\nchange: b.txt\ndelete: c.txt\n"`. -/
def sampleExec : List Char → ExecResult := fun _ =>
  { error := none
    stdout := "change: a.txt\nchange: b.txt\ndelete: c.txt\n".data
    stderr := [] }

/-- Environment with host `box:/srv/app`, workspace `/ws`, the sample
oracle, and execution time `d`. -/
def sampleEnv (d : Nat) : Env :=
  { currentHost := some "box:/srv/app".data
    workspaceFolder := some "/ws".data
    gitignoreExists := true
    exec := sampleExec
    execDuration := d }

/-- Oracle for a transfer process that fails with a non-zero exit. -/
def failExec : List Char → ExecResult := fun _ =>
  { error := some "rsync: connection unexpectedly closed".data
    stdout := []
    stderr := [] }

/-- Environment whose transfer process fails. -/
def failEnv : Env :=
  { currentHost := some "box:/srv/app".data
    workspaceFolder := some "/ws".data
    gitignoreExists := false
    exec := failExec
    execDuration := 7 }

/-- Environment with no selected host. -/
def noHostEnv : Env :=
  { currentHost := none
    workspaceFolder := some "/ws".data
    gitignoreExists := false
    exec := sampleExec
    execDuration := 0 }

/-! ### Claim C1: the Once deletion token -/

/-- **C1** — For every sync cycle run with deletion mode `Once` that invokes
the transfer tool: if the invocation succeeds (zero exit and no error-stream
output) the deletion mode is reverted to `Off` before the cycle's result is
returned; if the invocation fails, the deletion mode remains `Once` after
the cycle. -/
theorem c1_once_token (env : Env) (er : ExecResult)
    (hres : (runSyncCommand env DeletionMode.Once).execResult = some er) :
    (er.error = none ∧ er.stderr = [] →
        (runSyncCommand env DeletionMode.Once).finalMode = DeletionMode.Off)
  ∧ ((er.error ≠ none ∨ er.stderr ≠ []) →
        (runSyncCommand env DeletionMode.Once).finalMode = DeletionMode.Once) := by
  obtain ⟨cmd, heq⟩ := runSyncCommand_eq_callback env DeletionMode.Once er hres
  rw [heq]
  constructor
  · rintro ⟨he, hs⟩
    simp [execCallback, he, hs]
  · intro hf
    rcases her : er.error with _ | e
    · rcases hf with hf | hf
      · exact absurd her hf
      · simp [execCallback, her, hf]
    · simp [execCallback, her]

theorem c1_witness :
    (runSyncCommand (sampleEnv 3) DeletionMode.Once).finalMode = DeletionMode.Off ∧
    (runSyncCommand failEnv DeletionMode.Once).finalMode = DeletionMode.Once :=
  ⟨(c1_once_token (sampleEnv 3)
      { error := none
        stdout := "change: a.txt\nchange: b.txt\ndelete: c.txt\n".data
        stderr := [] } rfl).1 ⟨rfl, rfl⟩,
    (c1_once_token failEnv
      { error := some "rsync: connection unexpectedly closed".data
        stdout := []
        stderr := [] } rfl).2 (Or.inl (by simp))⟩

/-! ### Claim C2: process failure dominates -/

/-- **C2** — For every sync cycle whose transfer process exits non-zero or
writes to its error stream — regardless of standard output — the cycle
resolves with `success = false` carrying the tool's message (the process
error message, else the error-stream content), the last state set is
`Error`, and `Synced` is never set during the cycle. -/
theorem c2_total_failure (env : Env) (dm : DeletionMode) (er : ExecResult)
    (hres : (runSyncCommand env dm).execResult = some er)
    (hfail : er.error ≠ none ∨ er.stderr ≠ []) :
    (runSyncCommand env dm).result.success = false
  ∧ (runSyncCommand env dm).result.message = some (er.error.getD er.stderr)
  ∧ (runSyncCommand env dm).trace.getLast? = some SyncState.Error
  ∧ SyncState.Synced ∉ (runSyncCommand env dm).trace := by
  obtain ⟨cmd, heq⟩ := runSyncCommand_eq_callback env dm er hres
  rw [heq]
  rcases her : er.error with _ | e
  · rcases hfail with hf | hf
    · exact absurd her hf
    · refine ⟨?_, ?_, ?_, ?_⟩ <;> simp [execCallback, her, hf]
  · refine ⟨?_, ?_, ?_, ?_⟩ <;> simp [execCallback, her]

theorem c2_witness :
    (runSyncCommand failEnv DeletionMode.Off).result.success = false ∧
    (runSyncCommand failEnv DeletionMode.Off).result.message =
      some "rsync: connection unexpectedly closed".data ∧
    SyncState.Synced ∉ (runSyncCommand failEnv DeletionMode.Off).trace :=
  ⟨(c2_total_failure failEnv DeletionMode.Off
      { error := some "rsync: connection unexpectedly closed".data
        stdout := []
        stderr := [] } rfl (Or.inl (by simp))).1,
    (c2_total_failure failEnv DeletionMode.Off
      { error := some "rsync: connection unexpectedly closed".data
        stdout := []
        stderr := [] } rfl (Or.inl (by simp))).2.1,
    (c2_total_failure failEnv DeletionMode.Off
      { error := some "rsync: connection unexpectedly closed".data
        stdout := []
        stderr := [] } rfl (Or.inl (by simp))).2.2.2⟩

/-! ### Claim C3: no host selected -/

/-- **C3** — For every sync cycle started with no current host, or with a
current host that is empty or whitespace-only, the cycle sets state `Init`
(and nothing else), resolves with `success = false` and the no-host
message, and never invokes the external transfer tool. -/
theorem c3_no_host (env : Env) (dm : DeletionMode)
    (h : env.currentHost = none ∨
      ∃ s, env.currentHost = some s ∧ ∀ c ∈ s, c.isWhitespace = true) :
    (runSyncCommand env dm).trace = [SyncState.Init]
  ∧ (runSyncCommand env dm).result.success = false
  ∧ (runSyncCommand env dm).result.message = some "no remote host selected".data
  ∧ (runSyncCommand env dm).invoked = false := by
  rcases h with hn | ⟨s, hs, hws⟩
  · simp [runSyncCommand, hn, noHostOutcome]
  · have htrim : jsTrim s = [] := (jsTrim_eq_nil_iff s).mpr hws
    simp [runSyncCommand, hs, htrim, noHostOutcome]

theorem c3_witness :
    (runSyncCommand noHostEnv DeletionMode.Off).trace = [SyncState.Init] ∧
    (runSyncCommand noHostEnv DeletionMode.Off).result.success = false ∧
    (runSyncCommand noHostEnv DeletionMode.Off).invoked = false :=
  ⟨(c3_no_host noHostEnv DeletionMode.Off (Or.inl rfl)).1,
    (c3_no_host noHostEnv DeletionMode.Off (Or.inl rfl)).2.1,
    (c3_no_host noHostEnv DeletionMode.Off (Or.inl rfl)).2.2.2⟩

/-! ### Claim C5: parsing the sample output -/

theorem syncedMessage_two (d : Nat) :
    syncedMessage 2 d = "Synced 2 files in ".data ++ (Nat.repr d).data ++ "ms".data := by
  unfold syncedMessage
  rw [show (Nat.repr 2).data = "2".data by decide]
  simp only [← List.append_assoc]
  rw [show "Synced ".data ++ "2".data ++ " files in ".data = "Synced 2 files in ".data
    by decide]

/-- **C5** — For the transfer-tool standard output
`"change: a.txt\nchange: b.txt\ndelete: c.txt\n"` on a successful cycle,
the changed count is `2`, the parsed changed names are `["a.txt", "b.txt"]`
(label and surrounding whitespace stripped), and the success message is
`"Synced 2 files in <D>ms"` for the measured duration `D`. -/
theorem c5_sample_output (d : Nat) :
    (runSyncCommand (sampleEnv d) DeletionMode.Off).changedNames =
      ["a.txt".data, "b.txt".data]
  ∧ (runSyncCommand (sampleEnv d) DeletionMode.Off).changedNames.length = 2
  ∧ (runSyncCommand (sampleEnv d) DeletionMode.Off).result.success = true
  ∧ (runSyncCommand (sampleEnv d) DeletionMode.Off).result.message =
      some ("Synced 2 files in ".data ++ (Nat.repr d).data ++ "ms".data) := by
  have hm : (runSyncCommand (sampleEnv d) DeletionMode.Off).result.message =
      some (syncedMessage 2 d) := rfl
  exact ⟨rfl, rfl, rfl, by rw [hm, syncedMessage_two]⟩

theorem c5_witness :
    (runSyncCommand (sampleEnv 42) DeletionMode.Off).changedNames =
      ["a.txt".data, "b.txt".data] :=
  (c5_sample_output 42).1

/-! ### Claim C9: state sequence of two successful cycles -/

/-- Within one cycle's trace, any state other than `Init` and other than
`Syncing` itself is preceded by an earlier `Syncing` entry. -/
def syncingGuards (t : List SyncState) : Prop :=
  ∀ i : Fin t.length, t.get i ≠ SyncState.Init → t.get i ≠ SyncState.Syncing →
    SyncState.Syncing ∈ t.take i.val

instance (t : List SyncState) : Decidable (syncingGuards t) := by
  unfold syncingGuards
  infer_instance

theorem execCallback_success_trace (dm : DeletionMode) (cmd : List Char)
    (er : ExecResult) (t : Nat)
    (h : (execCallback dm cmd er t).result.success = true) :
    (execCallback dm cmd er t).trace =
      [SyncState.Syncing, SyncState.Syncing, SyncState.Synced] := by
  rcases her : er.error with _ | e
  · by_cases hs : er.stderr = []
    · simp [execCallback, her, hs]
    · simp [execCallback, her, hs] at h
  · simp [execCallback, her] at h

theorem runSyncCommand_success_trace (env : Env) (dm : DeletionMode)
    (h : (runSyncCommand env dm).result.success = true) :
    (runSyncCommand env dm).trace =
      [SyncState.Syncing, SyncState.Syncing, SyncState.Synced] := by
  unfold runSyncCommand at h ⊢
  cases hc : env.currentHost with
  | none =>
    rw [hc] at h
    simp [noHostOutcome] at h
  | some host =>
    rw [hc] at h
    by_cases ht : jsTrim host = []
    · simp [ht, noHostOutcome] at h
    · cases hw : env.workspaceFolder with
      | none =>
        rw [hw] at h
        simp [ht, noWorkspaceOutcome] at h
      | some fsPath =>
        rw [hw] at h
        dsimp only at h ⊢
        rw [if_neg ht] at h ⊢
        exact execCallback_success_trace _ _ _ _ h

/-- **C9** — For two consecutive successful cycles (the second starting
from the deletion mode the first left behind), the distinct states entered
starting from `Init` are `Init, Syncing, Synced, Syncing, Synced`; `Error`
is never entered; and within each cycle no state other than `Init` is
entered without the cycle first entering `Syncing`. -/
theorem c9_two_success_cycles (env1 env2 : Env) (dm : DeletionMode)
    (h1 : (runSyncCommand env1 dm).result.success = true)
    (h2 : (runSyncCommand env2 (runSyncCommand env1 dm).finalMode).result.success
      = true) :
    List.destutter (fun a b => a ≠ b)
        (SyncState.Init :: ((runSyncCommand env1 dm).trace ++
          (runSyncCommand env2 (runSyncCommand env1 dm).finalMode).trace)) =
      [SyncState.Init, SyncState.Syncing, SyncState.Synced,
        SyncState.Syncing, SyncState.Synced]
  ∧ SyncState.Error ∉
      SyncState.Init :: ((runSyncCommand env1 dm).trace ++
        (runSyncCommand env2 (runSyncCommand env1 dm).finalMode).trace)
  ∧ syncingGuards (runSyncCommand env1 dm).trace
  ∧ syncingGuards (runSyncCommand env2 (runSyncCommand env1 dm).finalMode).trace := by
  have t2 := runSyncCommand_success_trace env2 _ h2
  have t1 := runSyncCommand_success_trace env1 dm h1
  rw [t1, t2]
  exact ⟨by decide, by decide, by decide, by decide⟩

theorem c9_witness :
    List.destutter (fun a b => a ≠ b)
        (SyncState.Init :: ((runSyncCommand (sampleEnv 1) DeletionMode.Off).trace ++
          (runSyncCommand (sampleEnv 2)
            (runSyncCommand (sampleEnv 1) DeletionMode.Off).finalMode).trace)) =
      [SyncState.Init, SyncState.Syncing, SyncState.Synced,
        SyncState.Syncing, SyncState.Synced] :=
  (c9_two_success_cycles (sampleEnv 1) (sampleEnv 2) DeletionMode.Off rfl rfl).1

end CodeMirror
